import Mathlib

/-!
Verification of the spot-risk-assessment simulator (`simulate.py`) against its
natural-language specification.  The Python source is shallowly embedded:
prices and monetary amounts are rationals, Python `None`-able float parameters
are `Option ℚ`, Python exceptions are `Except CalcError`, and the process-wide
random source is an explicit stream `ℕ → ℚ` of unit-interval draws consumed
one per hour.
-/

namespace SpotRisk

/-- Python `random.uniform(a, b)`: `a + (b - a) * u` for a unit draw `u`. -/
def pyUniform (a b u : ℚ) : ℚ := a + (b - a) * u

/-- The peak-hour test used throughout `simulate.py`:
`6 <= (h % 24) <= 9 or 17 <= (h % 24) <= 20`. -/
def isPeakHour (h : ℕ) : Bool :=
  (decide (6 ≤ h % 24) && decide (h % 24 ≤ 9)) ||
    (decide (17 ≤ h % 24) && decide (h % 24 ≤ 20))

/-- One iteration of the loop body of `simulate_spot_prices` (`simulate.py`
lines 9-29): derive the synthetic month from the hour index, branch on the
season and the peak test, and draw uniformly from the corresponding range,
`u` being the unit draw consumed at this hour. -/
def priceForHour (hour : ℕ) (u : ℚ) : ℚ :=
  let month := (hour / 730) % 12 + 1
  if month ∈ [12, 1, 2] then
    if isPeakHour hour then pyUniform 8 20 u else pyUniform 2 10 u
  else if month ∈ [3, 4, 5] then
    if isPeakHour hour then pyUniform 5 15 u else pyUniform (-1) 5 u
  else if month ∈ [6, 7, 8] then
    if isPeakHour hour then pyUniform 4 12 u else pyUniform (-4) 4 u
  else
    if isPeakHour hour then pyUniform 6 16 u else pyUniform 2 6 u

/-- `simulate_spot_prices(num_hours)` (`simulate.py` lines 6-30).  The random
source is explicit: the draw consumed at hour `h` is `rng h`, one sequential
draw per hour. -/
def simulate_spot_prices (rng : ℕ → ℚ) (num_hours : ℕ) : List ℚ :=
  (List.range num_hours).map (fun hour => priceForHour hour (rng hour))

/-- Modelled from the spec (§4.1 table): the claimed season/peak price range
for a given hour index, written from the spec's twelve-entry table and its
month/peak classification, to be compared with the source's branching. -/
def specRange (h : ℕ) : ℚ × ℚ :=
  let m := (h / 730) % 12 + 1
  let peak := (6 ≤ h % 24 ∧ h % 24 ≤ 9) ∨ (17 ≤ h % 24 ∧ h % 24 ≤ 20)
  if m = 12 ∨ m = 1 ∨ m = 2 then (if peak then (8, 20) else (2, 10))
  else if m = 3 ∨ m = 4 ∨ m = 5 then (if peak then (5, 15) else (-1, 5))
  else if m = 6 ∨ m = 7 ∨ m = 8 then (if peak then (4, 12) else (-4, 4))
  else (if peak then (6, 16) else (2, 6))

/-- A `ConsumptionPeriod` as consumed by the calculator (spec §3): times are
already converted from the file's `HH:MM:SS` strings to seconds since
midnight (`parse_time`, `simulate.py` lines 38-40, a boundary conversion). -/
structure ConsumptionPeriod where
  start_time : ℕ
  stop_time : ℕ
  kw_draw : ℚ
  months : List ℕ
deriving DecidableEq

/-- A `ConsumptionEntry`: one named consumer with its period list (spec §3). -/
structure ConsumptionEntry where
  consumption_periods : List ConsumptionPeriod
deriving DecidableEq

/-- The summary record built at `simulate.py` lines 78-86. -/
structure CostSummary where
  total_cost_variable_price : ℚ
  highest_variable_price : ℚ
  lowest_variable_price : ℚ
  average_peak_price : ℚ
  average_off_peak_price : ℚ
  total_cost_fixed_rate : ℚ
  savings_with_spot_price : ℚ
deriving DecidableEq

/-- The Python runtime errors `calculate_costs` (or the CLI check) can raise:
`configError` is the `ValueError` of `main` (line 102), `noneArith` the
`TypeError` from `None + float` at line 69, `oobRead` an `IndexError` from
list subscription, `emptySeq` the `ValueError` of `max`/`min` on an empty
sequence (lines 71-72). -/
inductive CalcError where
  | configError
  | noneArith
  | oobRead
  | emptySeq
deriving DecidableEq

/-- The mutable accumulators of `calculate_costs` (lines 44-47). -/
structure CostState where
  total_variable_cost : ℚ
  total_fixed_cost : ℚ
  peak_prices : List ℚ
  off_peak_prices : List ℚ
deriving DecidableEq

/-- Python truthiness of an optional float: `None` and `0.0` are falsy. -/
def pyTruthy : Option ℚ → Bool
  | none => false
  | some v => decide (v ≠ 0)

/-- Python list subscription `l[i]`: nonnegative indices are positional,
negative indices wrap once from the end, anything else raises `IndexError`
(modelled as `none`). -/
def pyGet (l : List ℚ) (i : ℤ) : Option ℚ :=
  if 0 ≤ i then l.get? i.toNat
  else if 0 ≤ i + l.length then l.get? (i + l.length).toNat
  else none

/-- The active-window test of `simulate.py` line 62, with Python's operator
precedence (`and` binds tighter than `or`, chained comparison expanded):
`start <= current_hour < stop or stop < start and (current_hour < stop or
current_hour >= start)`. -/
def hourActive (start stop ch : ℕ) : Bool :=
  (decide (start ≤ ch) && decide (ch < stop)) ||
    (decide (stop < start) && (decide (ch < stop) || decide (start ≤ ch)))

/-- `current_hour = start // 3600 + hour` (`simulate.py` line 61): the
period's start hour plus the loop hour offset. -/
def current_hour (start hour : ℕ) : ℕ := start / 3600 + hour

/-- The fixed parameters of one `calculate_costs` call. -/
structure CalcCtx where
  spot_prices : List ℚ
  fixed_rate : Option ℚ
  transfer_price : ℚ
  fixed_total : Option ℚ

/-- The innermost `for hour in range(24)` loop of `calculate_costs`
(`simulate.py` lines 57-69), over the list of remaining hours.  `break` on
index overrun is the `.ok st` early return; the two faults it can raise are
`oobRead` (subscription) and `noneArith` (`fixed_rate` is `None` and a
fixed-cost accrual is reached). -/
def hourLoop (c : CalcCtx) (start stop : ℕ) (kw_draw : ℚ) (month day : ℕ) :
    List ℕ → CostState → Except CalcError CostState
  | [], st => .ok st
  | hour :: rest, st =>
    let hour_idx : ℤ := ((month : ℤ) - 1) * 730 + (day : ℤ) * 24 + (hour : ℤ)
    if (c.spot_prices.length : ℤ) ≤ hour_idx then .ok st
    else
      let ch := current_hour start hour
      if hourActive start stop ch then
        match pyGet c.spot_prices hour_idx with
        | none => .error .oobRead
        | some spot_price =>
          let st1 :=
            if isPeakHour ch then
              { st with peak_prices := st.peak_prices ++ [spot_price] }
            else
              { st with off_peak_prices := st.off_peak_prices ++ [spot_price] }
          let st2 := { st1 with
            total_variable_cost :=
              st1.total_variable_cost + (spot_price + c.transfer_price) * kw_draw }
          if pyTruthy c.fixed_total then
            hourLoop c start stop kw_draw month day rest st2
          else
            match c.fixed_rate with
            | none => .error .noneArith
            | some fr =>
              hourLoop c start stop kw_draw month day rest
                { st2 with
                  total_fixed_cost :=
                    st2.total_fixed_cost + (fr + c.transfer_price) * kw_draw }
      else hourLoop c start stop kw_draw month day rest st

/-- The `for day in range(30)` loop (`simulate.py` line 56): each day runs
the hour loop over `range(24)`; a `break` inside only ends that day's hours. -/
def dayLoop (c : CalcCtx) (start stop : ℕ) (kw_draw : ℚ) (month : ℕ) :
    List ℕ → CostState → Except CalcError CostState
  | [], st => .ok st
  | day :: rest, st =>
    match hourLoop c start stop kw_draw month day (List.range 24) st with
    | .error e => .error e
    | .ok st1 => dayLoop c start stop kw_draw month rest st1

/-- The `for month in months` loop (`simulate.py` line 55). -/
def monthLoop (c : CalcCtx) (start stop : ℕ) (kw_draw : ℚ) :
    List ℕ → CostState → Except CalcError CostState
  | [], st => .ok st
  | month :: rest, st =>
    match dayLoop c start stop kw_draw month (List.range 30) st with
    | .error e => .error e
    | .ok st1 => monthLoop c start stop kw_draw rest st1

/-- The `for cpo in co['consumption_periods']` loop (lines 50-54). -/
def periodLoop (c : CalcCtx) :
    List ConsumptionPeriod → CostState → Except CalcError CostState
  | [], st => .ok st
  | p :: rest, st =>
    match monthLoop c p.start_time p.stop_time p.kw_draw p.months st with
    | .error e => .error e
    | .ok st1 => periodLoop c rest st1

/-- The `for co in consumption_data` loop (line 49). -/
def entryLoop (c : CalcCtx) :
    List ConsumptionEntry → CostState → Except CalcError CostState
  | [], st => .ok st
  | e :: rest, st =>
    match periodLoop c e.consumption_periods st with
    | .error e => .error e
    | .ok st1 => entryLoop c rest st1

/-- Python `max` over a list (`ValueError`, i.e. `none`, on empty). -/
def listMax : List ℚ → Option ℚ
  | [] => none
  | x :: xs => some (xs.foldl max x)

/-- Python `min` over a list (`ValueError`, i.e. `none`, on empty). -/
def listMin : List ℚ → Option ℚ
  | [] => none
  | x :: xs => some (xs.foldl min x)

/-- `sum(l) / len(l) if l else 0` (`simulate.py` lines 73-74). -/
def pyAvg (l : List ℚ) : ℚ := if l.isEmpty then 0 else l.sum / l.length

/-- `total_fixed_cost = fixed_total * 100 if fixed_total else 0.0`
(`simulate.py` line 45), with Python truthiness. -/
def initFixed (fixed_total : Option ℚ) : ℚ :=
  if pyTruthy fixed_total then fixed_total.getD 0 * 100 else 0

/-- `calculate_costs` (`simulate.py` lines 43-86). -/
def calculate_costs (consumption_data : List ConsumptionEntry)
    (spot_prices : List ℚ) (fixed_rate : Option ℚ) (transfer_price : ℚ)
    (fixed_total : Option ℚ) : Except CalcError CostSummary :=
  let c : CalcCtx := ⟨spot_prices, fixed_rate, transfer_price, fixed_total⟩
  let st0 : CostState := ⟨0, initFixed fixed_total, [], []⟩
  match entryLoop c consumption_data st0 with
  | .error e => .error e
  | .ok st =>
    match listMax spot_prices, listMin spot_prices with
    | some hi, some lo =>
      .ok
        { total_cost_variable_price := st.total_variable_cost / 100
          highest_variable_price := hi
          lowest_variable_price := lo
          average_peak_price := pyAvg st.peak_prices
          average_off_peak_price := pyAvg st.off_peak_prices
          total_cost_fixed_rate := st.total_fixed_cost / 100
          savings_with_spot_price :=
            st.total_fixed_cost / 100 - st.total_variable_cost / 100 }
    | _, _ => .error .emptySeq

/-- The CLI precondition check of `main` (`simulate.py` lines 101-102):
`if not args.fixed_rate and not args.fixed_total: raise ValueError(...)`. -/
def checkConfig (fixed_rate fixed_total : Option ℚ) : Except CalcError Unit :=
  if !pyTruthy fixed_rate && !pyTruthy fixed_total then .error .configError
  else .ok ()

/-- The spec's data-model invariant on a period (§3): every listed month is
an integer in `1..12`. -/
def ValidPeriod (p : ConsumptionPeriod) : Prop :=
  ∀ m ∈ p.months, 1 ≤ m ∧ m ≤ 12

/-- Consumption data whose periods all satisfy the §3 month invariant. -/
def ValidData (cd : List ConsumptionEntry) : Prop :=
  ∀ e ∈ cd, ∀ p ∈ e.consumption_periods, ValidPeriod p

instance (p : ConsumptionPeriod) : Decidable (ValidPeriod p) := by
  unfold ValidPeriod; infer_instance

instance (cd : List ConsumptionEntry) : Decidable (ValidData cd) := by
  unfold ValidData; infer_instance

lemma pyUniform_mem (a b u : ℚ) (hab : a ≤ b) (h0 : 0 ≤ u) (h1 : u ≤ 1) :
    a ≤ pyUniform a b u ∧ pyUniform a b u ≤ b := by
  unfold pyUniform
  constructor <;> nlinarith

lemma isPeakHour_iff (h : ℕ) :
    isPeakHour h = true ↔ (6 ≤ h % 24 ∧ h % 24 ≤ 9) ∨ (17 ≤ h % 24 ∧ h % 24 ≤ 20) := by
  simp [isPeakHour]

lemma priceForHour_mem_specRange (h : ℕ) (u : ℚ) (h0 : 0 ≤ u) (h1 : u ≤ 1) :
    (specRange h).1 ≤ priceForHour h u ∧ priceForHour h u ≤ (specRange h).2 := by
  unfold priceForHour specRange
  simp only [List.mem_cons, List.mem_singleton, List.not_mem_nil, or_false,
    ← isPeakHour_iff]
  split_ifs <;> simp_all <;>
    exact pyUniform_mem _ _ _ (by norm_num) h0 h1

lemma simulate_get?_eq (rng : ℕ → ℚ) (N h : ℕ) (p : ℚ)
    (hp : (simulate_spot_prices rng N).get? h = some p) :
    h < N ∧ p = priceForHour h (rng h) := by
  by_cases hlt : h < N
  · refine ⟨hlt, ?_⟩
    unfold simulate_spot_prices at hp
    rw [List.get?_map, List.get?_range hlt] at hp
    simpa using hp.symm
  · exfalso
    have hlen : (simulate_spot_prices rng N).length ≤ h := by
      simp only [simulate_spot_prices, List.length_map, List.length_range]
      omega
    rw [List.get?_eq_none.mpr hlen] at hp
    simp at hp

lemma hour_idx_nonneg (month day hour : ℕ) (hm : 1 ≤ month) :
    0 ≤ ((month : ℤ) - 1) * 730 + (day : ℤ) * 24 + (hour : ℤ) := by
  omega

lemma pyGet_pos (l : List ℚ) (i : ℤ) (h0 : 0 ≤ i) (hlt : i < (l.length : ℤ)) :
    ∃ p, pyGet l i = some p := by
  unfold pyGet
  rw [if_pos h0]
  cases hg : l.get? i.toNat with
  | none =>
    exfalso
    have := List.get?_eq_none.mp hg
    omega
  | some p => exact ⟨p, rfl⟩

lemma hourLoop_nil (c : CalcCtx) (start stop : ℕ) (kw : ℚ) (month day : ℕ)
    (st : CostState) : hourLoop c start stop kw month day [] st = .ok st := rfl

lemma hourLoop_cons_break (c : CalcCtx) (start stop : ℕ) (kw : ℚ)
    (month day hour : ℕ) (rest : List ℕ) (st : CostState)
    (h : (c.spot_prices.length : ℤ) ≤
      ((month : ℤ) - 1) * 730 + (day : ℤ) * 24 + (hour : ℤ)) :
    hourLoop c start stop kw month day (hour :: rest) st = .ok st := by
  simp only [hourLoop]
  rw [if_pos h]

lemma hourLoop_error_eq (c : CalcCtx) (start stop : ℕ) (kw : ℚ)
    (month day : ℕ) (hm : 1 ≤ month) :
    ∀ hrs st e, hourLoop c start stop kw month day hrs st = .error e →
      e = .noneArith := by
  intro hrs
  induction hrs with
  | nil => intro st e h; simp [hourLoop] at h
  | cons hour rest ih =>
    intro st e h
    simp only [hourLoop] at h
    by_cases hguard : (c.spot_prices.length : ℤ) ≤
        ((month : ℤ) - 1) * 730 + (day : ℤ) * 24 + (hour : ℤ)
    · rw [if_pos hguard] at h
      cases h
    · rw [if_neg hguard] at h
      by_cases hact : hourActive start stop (current_hour start hour) = true
      · rw [if_pos hact] at h
        obtain ⟨sp, hsp⟩ := pyGet_pos c.spot_prices _
          (hour_idx_nonneg month day hour hm) (by omega)
        rw [hsp] at h
        dsimp only at h
        by_cases hft : pyTruthy c.fixed_total = true
        · rw [if_pos hft] at h
          exact ih _ _ h
        · rw [if_neg hft] at h
          cases hfr : c.fixed_rate with
          | none => rw [hfr] at h; cases h; rfl
          | some fr => rw [hfr] at h; exact ih _ _ h
      · rw [if_neg hact] at h
        exact ih _ _ h

lemma hourLoop_truthy (c : CalcCtx) (start stop : ℕ) (kw : ℚ)
    (month day : ℕ) (hft : pyTruthy c.fixed_total = true) (hm : 1 ≤ month) :
    ∀ hrs st, ∃ st1, hourLoop c start stop kw month day hrs st = .ok st1 ∧
      st1.total_fixed_cost = st.total_fixed_cost := by
  intro hrs
  induction hrs with
  | nil => intro st; exact ⟨st, rfl, rfl⟩
  | cons hour rest ih =>
    intro st
    simp only [hourLoop]
    by_cases hguard : (c.spot_prices.length : ℤ) ≤
        ((month : ℤ) - 1) * 730 + (day : ℤ) * 24 + (hour : ℤ)
    · rw [if_pos hguard]
      exact ⟨st, rfl, rfl⟩
    · rw [if_neg hguard]
      by_cases hact : hourActive start stop (current_hour start hour) = true
      · rw [if_pos hact]
        obtain ⟨sp, hsp⟩ := pyGet_pos c.spot_prices _
          (hour_idx_nonneg month day hour hm) (by omega)
        rw [hsp]
        dsimp only
        rw [if_pos hft]
        obtain ⟨st1, h1, h2⟩ := ih _
        refine ⟨st1, h1, ?_⟩
        rw [h2]
        by_cases hpk : isPeakHour (current_hour start hour) = true
        · rw [if_pos hpk]
        · rw [if_neg hpk]
      · rw [if_neg hact]
        exact ih st

lemma hourLoop_nil_prices (c : CalcCtx) (start stop : ℕ) (kw : ℚ)
    (month day : ℕ) (hps : c.spot_prices = []) (hm : 1 ≤ month) :
    ∀ hrs st, hourLoop c start stop kw month day hrs st = .ok st := by
  intro hrs st
  cases hrs with
  | nil => rfl
  | cons hour rest =>
    apply hourLoop_cons_break
    rw [hps]
    simpa using hour_idx_nonneg month day hour hm

lemma hourLoop_range_break (c : CalcCtx) (start stop : ℕ) (kw : ℚ)
    (month day : ℕ) (n : ℕ) (hn : 0 < n) (st : CostState)
    (h : (c.spot_prices.length : ℤ) ≤ ((month : ℤ) - 1) * 730 + (day : ℤ) * 24) :
    hourLoop c start stop kw month day (List.range n) st = .ok st := by
  cases n with
  | zero => cases hn
  | succ m =>
    rw [List.range_succ_eq_map]
    apply hourLoop_cons_break
    simpa using h

lemma dayLoop_all_break (c : CalcCtx) (start stop : ℕ) (kw : ℚ) (month : ℕ)
    (days : List ℕ) (st : CostState)
    (h : ∀ day ∈ days,
      (c.spot_prices.length : ℤ) ≤ ((month : ℤ) - 1) * 730 + (day : ℤ) * 24) :
    dayLoop c start stop kw month days st = .ok st := by
  induction days with
  | nil => rfl
  | cons day rest ih =>
    simp only [dayLoop]
    rw [hourLoop_range_break c start stop kw month day 24 (by norm_num) st
      (h day (List.mem_cons_self day rest))]
    exact ih (fun d hd => h d (List.mem_cons_of_mem day hd))

lemma dayLoop_cons_ok {c : CalcCtx} {start stop : ℕ} {kw : ℚ}
    {month day : ℕ} {rest : List ℕ} {st st1 : CostState}
    (h : hourLoop c start stop kw month day (List.range 24) st = .ok st1) :
    dayLoop c start stop kw month (day :: rest) st =
      dayLoop c start stop kw month rest st1 := by
  simp only [dayLoop]
  rw [h]

lemma monthLoop_nil (c : CalcCtx) (start stop : ℕ) (kw : ℚ) (st : CostState) :
    monthLoop c start stop kw [] st = .ok st := rfl

lemma monthLoop_cons_ok {c : CalcCtx} {start stop : ℕ} {kw : ℚ} {month : ℕ}
    {rest : List ℕ} {st st1 : CostState}
    (h : dayLoop c start stop kw month (List.range 30) st = .ok st1) :
    monthLoop c start stop kw (month :: rest) st =
      monthLoop c start stop kw rest st1 := by
  simp only [monthLoop]
  rw [h]

lemma periodLoop_nil (c : CalcCtx) (st : CostState) :
    periodLoop c [] st = .ok st := rfl

lemma periodLoop_cons_ok {c : CalcCtx} {p : ConsumptionPeriod}
    {rest : List ConsumptionPeriod} {st st1 : CostState}
    (h : monthLoop c p.start_time p.stop_time p.kw_draw p.months st = .ok st1) :
    periodLoop c (p :: rest) st = periodLoop c rest st1 := by
  simp only [periodLoop]
  rw [h]

lemma entryLoop_nil (c : CalcCtx) (st : CostState) :
    entryLoop c [] st = .ok st := rfl

lemma entryLoop_cons_ok {c : CalcCtx} {e : ConsumptionEntry}
    {rest : List ConsumptionEntry} {st st1 : CostState}
    (h : periodLoop c e.consumption_periods st = .ok st1) :
    entryLoop c (e :: rest) st = entryLoop c rest st1 := by
  simp only [entryLoop]
  rw [h]

lemma dayLoop_error_eq (c : CalcCtx) (start stop : ℕ) (kw : ℚ) (month : ℕ)
    (hm : 1 ≤ month) :
    ∀ days st e, dayLoop c start stop kw month days st = .error e →
      e = .noneArith := by
  intro days
  induction days with
  | nil => intro st e h; cases h
  | cons day rest ih =>
    intro st e h
    simp only [dayLoop] at h
    cases hh : hourLoop c start stop kw month day (List.range 24) st with
    | error e1 =>
      rw [hh] at h
      cases h
      exact hourLoop_error_eq c start stop kw month day hm _ _ _ hh
    | ok st1 =>
      rw [hh] at h
      exact ih _ _ h

lemma dayLoop_truthy (c : CalcCtx) (start stop : ℕ) (kw : ℚ) (month : ℕ)
    (hft : pyTruthy c.fixed_total = true) (hm : 1 ≤ month) :
    ∀ days st, ∃ st1, dayLoop c start stop kw month days st = .ok st1 ∧
      st1.total_fixed_cost = st.total_fixed_cost := by
  intro days
  induction days with
  | nil => intro st; exact ⟨st, rfl, rfl⟩
  | cons day rest ih =>
    intro st
    simp only [dayLoop]
    obtain ⟨st1, h1, h2⟩ := hourLoop_truthy c start stop kw month day hft hm
      (List.range 24) st
    rw [h1]
    obtain ⟨st2, h3, h4⟩ := ih st1
    exact ⟨st2, h3, by rw [h4, h2]⟩

lemma dayLoop_nil_prices (c : CalcCtx) (start stop : ℕ) (kw : ℚ) (month : ℕ)
    (hps : c.spot_prices = []) (hm : 1 ≤ month) :
    ∀ days st, dayLoop c start stop kw month days st = .ok st := by
  intro days
  induction days with
  | nil => intro st; rfl
  | cons day rest ih =>
    intro st
    simp only [dayLoop]
    rw [hourLoop_nil_prices c start stop kw month day hps hm (List.range 24) st]
    exact ih st

lemma monthLoop_error_eq (c : CalcCtx) (start stop : ℕ) (kw : ℚ)
    (months : List ℕ) (hm : ∀ m ∈ months, 1 ≤ m) :
    ∀ st e, monthLoop c start stop kw months st = .error e →
      e = .noneArith := by
  induction months with
  | nil => intro st e h; cases h
  | cons month rest ih =>
    intro st e h
    simp only [monthLoop] at h
    cases hh : dayLoop c start stop kw month (List.range 30) st with
    | error e1 =>
      rw [hh] at h
      cases h
      exact dayLoop_error_eq c start stop kw month
        (hm month (List.mem_cons_self month rest)) _ _ _ hh
    | ok st1 =>
      rw [hh] at h
      exact ih (fun m hmem => hm m (List.mem_cons_of_mem month hmem)) _ _ h

lemma monthLoop_truthy (c : CalcCtx) (start stop : ℕ) (kw : ℚ)
    (months : List ℕ) (hft : pyTruthy c.fixed_total = true)
    (hm : ∀ m ∈ months, 1 ≤ m) :
    ∀ st, ∃ st1, monthLoop c start stop kw months st = .ok st1 ∧
      st1.total_fixed_cost = st.total_fixed_cost := by
  induction months with
  | nil => intro st; exact ⟨st, rfl, rfl⟩
  | cons month rest ih =>
    intro st
    simp only [monthLoop]
    obtain ⟨st1, h1, h2⟩ := dayLoop_truthy c start stop kw month hft
      (hm month (List.mem_cons_self month rest)) (List.range 30) st
    rw [h1]
    obtain ⟨st2, h3, h4⟩ :=
      ih (fun m hmem => hm m (List.mem_cons_of_mem month hmem)) st1
    exact ⟨st2, h3, by rw [h4, h2]⟩

lemma monthLoop_nil_prices (c : CalcCtx) (start stop : ℕ) (kw : ℚ)
    (months : List ℕ) (hps : c.spot_prices = []) (hm : ∀ m ∈ months, 1 ≤ m) :
    ∀ st, monthLoop c start stop kw months st = .ok st := by
  induction months with
  | nil => intro st; rfl
  | cons month rest ih =>
    intro st
    simp only [monthLoop]
    rw [dayLoop_nil_prices c start stop kw month hps
      (hm month (List.mem_cons_self month rest)) (List.range 30) st]
    exact ih (fun m hmem => hm m (List.mem_cons_of_mem month hmem)) st

lemma periodLoop_error_eq (c : CalcCtx) (ps : List ConsumptionPeriod)
    (hv : ∀ p ∈ ps, ValidPeriod p) :
    ∀ st e, periodLoop c ps st = .error e → e = .noneArith := by
  induction ps with
  | nil => intro st e h; cases h
  | cons p rest ih =>
    intro st e h
    simp only [periodLoop] at h
    cases hh : monthLoop c p.start_time p.stop_time p.kw_draw p.months st with
    | error e1 =>
      rw [hh] at h
      cases h
      exact monthLoop_error_eq c _ _ _ p.months
        (fun m hmem => (hv p (List.mem_cons_self p rest) m hmem).1) _ _ hh
    | ok st1 =>
      rw [hh] at h
      exact ih (fun q hmem => hv q (List.mem_cons_of_mem p hmem)) _ _ h

lemma periodLoop_truthy (c : CalcCtx) (ps : List ConsumptionPeriod)
    (hft : pyTruthy c.fixed_total = true) (hv : ∀ p ∈ ps, ValidPeriod p) :
    ∀ st, ∃ st1, periodLoop c ps st = .ok st1 ∧
      st1.total_fixed_cost = st.total_fixed_cost := by
  induction ps with
  | nil => intro st; exact ⟨st, rfl, rfl⟩
  | cons p rest ih =>
    intro st
    simp only [periodLoop]
    obtain ⟨st1, h1, h2⟩ := monthLoop_truthy c p.start_time p.stop_time
      p.kw_draw p.months hft
      (fun m hmem => (hv p (List.mem_cons_self p rest) m hmem).1) st
    rw [h1]
    obtain ⟨st2, h3, h4⟩ := ih (fun q hmem => hv q (List.mem_cons_of_mem p hmem)) st1
    exact ⟨st2, h3, by rw [h4, h2]⟩

lemma periodLoop_nil_prices (c : CalcCtx) (ps : List ConsumptionPeriod)
    (hps : c.spot_prices = []) (hv : ∀ p ∈ ps, ValidPeriod p) :
    ∀ st, periodLoop c ps st = .ok st := by
  induction ps with
  | nil => intro st; rfl
  | cons p rest ih =>
    intro st
    simp only [periodLoop]
    rw [monthLoop_nil_prices c p.start_time p.stop_time p.kw_draw p.months hps
      (fun m hmem => (hv p (List.mem_cons_self p rest) m hmem).1) st]
    exact ih (fun q hmem => hv q (List.mem_cons_of_mem p hmem)) st

lemma entryLoop_error_eq (c : CalcCtx) (cd : List ConsumptionEntry)
    (hv : ValidData cd) :
    ∀ st e, entryLoop c cd st = .error e → e = .noneArith := by
  induction cd with
  | nil => intro st e h; cases h
  | cons en rest ih =>
    intro st e h
    simp only [entryLoop] at h
    cases hh : periodLoop c en.consumption_periods st with
    | error e1 =>
      rw [hh] at h
      cases h
      exact periodLoop_error_eq c en.consumption_periods
        (hv en (List.mem_cons_self en rest)) _ _ hh
    | ok st1 =>
      rw [hh] at h
      exact ih (fun q hmem => hv q (List.mem_cons_of_mem en hmem)) _ _ h

lemma entryLoop_truthy (c : CalcCtx) (cd : List ConsumptionEntry)
    (hft : pyTruthy c.fixed_total = true) (hv : ValidData cd) :
    ∀ st, ∃ st1, entryLoop c cd st = .ok st1 ∧
      st1.total_fixed_cost = st.total_fixed_cost := by
  induction cd with
  | nil => intro st; exact ⟨st, rfl, rfl⟩
  | cons en rest ih =>
    intro st
    simp only [entryLoop]
    obtain ⟨st1, h1, h2⟩ := periodLoop_truthy c en.consumption_periods hft
      (hv en (List.mem_cons_self en rest)) st
    rw [h1]
    obtain ⟨st2, h3, h4⟩ := ih (fun q hmem => hv q (List.mem_cons_of_mem en hmem)) st1
    exact ⟨st2, h3, by rw [h4, h2]⟩

lemma entryLoop_nil_prices (c : CalcCtx) (cd : List ConsumptionEntry)
    (hps : c.spot_prices = []) (hv : ValidData cd) :
    ∀ st, entryLoop c cd st = .ok st := by
  induction cd with
  | nil => intro st; rfl
  | cons en rest ih =>
    intro st
    simp only [entryLoop]
    rw [periodLoop_nil_prices c en.consumption_periods hps
      (hv en (List.mem_cons_self en rest)) st]
    exact ih (fun q hmem => hv q (List.mem_cons_of_mem en hmem)) st

lemma listMax_of_ne_nil (l : List ℚ) (h : l ≠ []) : ∃ x, listMax l = some x := by
  cases l with
  | nil => exact absurd rfl h
  | cons a as => exact ⟨as.foldl max a, rfl⟩

lemma listMin_of_ne_nil (l : List ℚ) (h : l ≠ []) : ∃ x, listMin l = some x := by
  cases l with
  | nil => exact absurd rfl h
  | cons a as => exact ⟨as.foldl min a, rfl⟩

lemma calculate_costs_eq_of (cd : List ConsumptionEntry) (ps : List ℚ)
    (fr : Option ℚ) (tp : ℚ) (ft : Option ℚ) (st : CostState) (hi lo : ℚ)
    (he : entryLoop ⟨ps, fr, tp, ft⟩ cd ⟨0, initFixed ft, [], []⟩ = .ok st)
    (hmax : listMax ps = some hi) (hmin : listMin ps = some lo) :
    calculate_costs cd ps fr tp ft = .ok
      ⟨st.total_variable_cost / 100, hi, lo, pyAvg st.peak_prices,
        pyAvg st.off_peak_prices, st.total_fixed_cost / 100,
        st.total_fixed_cost / 100 - st.total_variable_cost / 100⟩ := by
  simp only [calculate_costs]
  rw [he, hmax, hmin]

lemma calculate_costs_ok_inv (cd : List ConsumptionEntry) (ps : List ℚ)
    (fr : Option ℚ) (tp : ℚ) (ft : Option ℚ) (s : CostSummary)
    (h : calculate_costs cd ps fr tp ft = .ok s) :
    ∃ st hi lo,
      entryLoop ⟨ps, fr, tp, ft⟩ cd ⟨0, initFixed ft, [], []⟩ = .ok st ∧
      listMax ps = some hi ∧ listMin ps = some lo ∧
      s = ⟨st.total_variable_cost / 100, hi, lo, pyAvg st.peak_prices,
        pyAvg st.off_peak_prices, st.total_fixed_cost / 100,
        st.total_fixed_cost / 100 - st.total_variable_cost / 100⟩ := by
  simp only [calculate_costs] at h
  cases he : entryLoop ⟨ps, fr, tp, ft⟩ cd ⟨0, initFixed ft, [], []⟩ with
  | error e => rw [he] at h; simp at h
  | ok st =>
    rw [he] at h
    cases hmax : listMax ps with
    | none => rw [hmax] at h; simp at h
    | some hi =>
      rw [hmax] at h
      cases hmin : listMin ps with
      | none => rw [hmin] at h; simp at h
      | some lo =>
        rw [hmin] at h
        simp only [Except.ok.injEq] at h
        exact ⟨st, hi, lo, rfl, rfl, rfl, h.symm⟩

/-- C7: every price emitted by `simulate_spot_prices` at an index whose
synthetic month is a winter month `{12, 1, 2}` and whose hour-of-day is peak
lies in `[8, 20]`; every summer-month `{6, 7, 8}` off-peak price lies in
`[-4, 4]`; and in general each emitted price lies within the season/peak
range of the spec's twelve-entry table, boundaries included. -/
theorem c7_price_ranges (rng : ℕ → ℚ) (N h : ℕ) (p : ℚ)
    (hrng : ∀ n, 0 ≤ rng n ∧ rng n ≤ 1)
    (hp : (simulate_spot_prices rng N).get? h = some p) :
    ((h / 730 % 12 + 1 = 12 ∨ h / 730 % 12 + 1 = 1 ∨ h / 730 % 12 + 1 = 2) →
        ((6 ≤ h % 24 ∧ h % 24 ≤ 9) ∨ (17 ≤ h % 24 ∧ h % 24 ≤ 20)) →
        8 ≤ p ∧ p ≤ 20) ∧
    ((h / 730 % 12 + 1 = 6 ∨ h / 730 % 12 + 1 = 7 ∨ h / 730 % 12 + 1 = 8) →
        ¬((6 ≤ h % 24 ∧ h % 24 ≤ 9) ∨ (17 ≤ h % 24 ∧ h % 24 ≤ 20)) →
        -4 ≤ p ∧ p ≤ 4) ∧
    ((specRange h).1 ≤ p ∧ p ≤ (specRange h).2) := by
  obtain ⟨hlt, rfl⟩ := simulate_get?_eq rng N h p hp
  have hb := priceForHour_mem_specRange h (rng h) (hrng h).1 (hrng h).2
  refine ⟨?_, ?_, hb⟩
  · intro hm hpk
    have hr : specRange h = (8, 20) := by
      simp only [specRange]
      rw [if_pos hm, if_pos hpk]
    rw [hr] at hb
    exact hb
  · intro hm hpk
    have hr : specRange h = (-4, 4) := by
      simp only [specRange]
      rw [if_neg (by omega), if_neg (by omega), if_pos hm, if_neg hpk]
    rw [hr] at hb
    exact hb

theorem c7_price_ranges_witness :
    ((0 / 730 % 12 + 1 = 12 ∨ 0 / 730 % 12 + 1 = 1 ∨ 0 / 730 % 12 + 1 = 2) →
        ((6 ≤ 0 % 24 ∧ 0 % 24 ≤ 9) ∨ (17 ≤ 0 % 24 ∧ 0 % 24 ≤ 20)) →
        (8 : ℚ) ≤ 2 ∧ (2 : ℚ) ≤ 20) ∧
    ((0 / 730 % 12 + 1 = 6 ∨ 0 / 730 % 12 + 1 = 7 ∨ 0 / 730 % 12 + 1 = 8) →
        ¬((6 ≤ 0 % 24 ∧ 0 % 24 ≤ 9) ∨ (17 ≤ 0 % 24 ∧ 0 % 24 ≤ 20)) →
        (-4 : ℚ) ≤ 2 ∧ (2 : ℚ) ≤ 4) ∧
    ((specRange 0).1 ≤ (2 : ℚ) ∧ (2 : ℚ) ≤ (specRange 0).2) :=
  c7_price_ranges (fun _ => 0) 1 0 2
    (by intro n; norm_num)
    (by norm_num [simulate_spot_prices, List.range_succ, priceForHour, isPeakHour,
      pyUniform])

/-- C8: `simulate_spot_prices` is deterministic in the seeded random-source
state: two runs whose streams agree on the draws consumed (one draw per hour,
sequential, so the first `num_hours` draws) produce identical outputs. -/
theorem c8_seed_determinism (r1 r2 : ℕ → ℚ) (N : ℕ)
    (hagree : ∀ n, n < N → r1 n = r2 n) :
    simulate_spot_prices r1 N = simulate_spot_prices r2 N := by
  unfold simulate_spot_prices
  apply List.map_congr_left
  intro a ha
  rw [hagree a (List.mem_range.mp ha)]

theorem c8_seed_determinism_witness :
    simulate_spot_prices (fun _ => 1 / 2) 2 =
      simulate_spot_prices (fun n => if n < 2 then 1 / 2 else 7) 2 :=
  c8_seed_determinism (fun _ => 1 / 2) (fun n => if n < 2 then 1 / 2 else 7) 2
    (by intro n hn; simp [hn])

/-- C9: the sequence returned by `simulate_spot_prices` for `num_hours = N`
has length exactly `N`, for every `N ≥ 0`. -/
theorem c9_output_length (rng : ℕ → ℚ) (N : ℕ) :
    (simulate_spot_prices rng N).length = N := by
  simp [simulate_spot_prices]

lemma foldl_max_mem (as : List ℚ) (a : ℚ) :
    as.foldl max a = a ∨ as.foldl max a ∈ as := by
  induction as generalizing a with
  | nil => left; rfl
  | cons b bs ih =>
    simp only [List.foldl_cons]
    rcases ih (max a b) with h | h
    · rcases max_cases a b with ⟨he, _⟩ | ⟨he, _⟩
      · left; rw [h, he]
      · right; rw [h, he]; exact List.mem_cons_self b bs
    · right; exact List.mem_cons_of_mem b h

lemma le_foldl_max (as : List ℚ) (a : ℚ) :
    a ≤ as.foldl max a ∧ ∀ y ∈ as, y ≤ as.foldl max a := by
  induction as generalizing a with
  | nil => simp
  | cons b bs ih =>
    obtain ⟨h1, h2⟩ := ih (max a b)
    simp only [List.foldl_cons]
    refine ⟨le_trans (le_max_left a b) h1, ?_⟩
    intro y hy
    rcases List.mem_cons.mp hy with rfl | hy
    · exact le_trans (le_max_right a y) h1
    · exact h2 y hy

lemma foldl_min_mem (as : List ℚ) (a : ℚ) :
    as.foldl min a = a ∨ as.foldl min a ∈ as := by
  induction as generalizing a with
  | nil => left; rfl
  | cons b bs ih =>
    simp only [List.foldl_cons]
    rcases ih (min a b) with h | h
    · rcases min_cases a b with ⟨he, _⟩ | ⟨he, _⟩
      · left; rw [h, he]
      · right; rw [h, he]; exact List.mem_cons_self b bs
    · right; exact List.mem_cons_of_mem b h

lemma foldl_min_le (as : List ℚ) (a : ℚ) :
    as.foldl min a ≤ a ∧ ∀ y ∈ as, as.foldl min a ≤ y := by
  induction as generalizing a with
  | nil => simp
  | cons b bs ih =>
    obtain ⟨h1, h2⟩ := ih (min a b)
    simp only [List.foldl_cons]
    refine ⟨le_trans h1 (min_le_left a b), ?_⟩
    intro y hy
    rcases List.mem_cons.mp hy with rfl | hy
    · exact le_trans h1 (min_le_right a y)
    · exact h2 y hy

lemma listMax_spec (l : List ℚ) (x : ℚ) (h : listMax l = some x) :
    x ∈ l ∧ ∀ y ∈ l, y ≤ x := by
  cases l with
  | nil => cases h
  | cons a as =>
    simp only [listMax, Option.some.injEq] at h
    subst h
    constructor
    · rcases foldl_max_mem as a with h | h
      · rw [h]; exact List.mem_cons_self a as
      · exact List.mem_cons_of_mem a h
    · intro y hy
      rcases List.mem_cons.mp hy with rfl | hy
      · exact (le_foldl_max as y).1
      · exact (le_foldl_max as a).2 y hy

lemma listMin_spec (l : List ℚ) (x : ℚ) (h : listMin l = some x) :
    x ∈ l ∧ ∀ y ∈ l, x ≤ y := by
  cases l with
  | nil => cases h
  | cons a as =>
    simp only [listMin, Option.some.injEq] at h
    subst h
    constructor
    · rcases foldl_min_mem as a with h | h
      · rw [h]; exact List.mem_cons_self a as
      · exact List.mem_cons_of_mem a h
    · intro y hy
      rcases List.mem_cons.mp hy with rfl | hy
      · exact (foldl_min_le as y).1
      · exact (foldl_min_le as a).2 y hy

/-- C3: whenever `calculate_costs` returns a `CostSummary`, its
`highest_variable_price` and `lowest_variable_price` are the maximum and
minimum over the entire `spot_prices` series — for every `consumption_data`,
including empty consumption data — not merely over the consumed hours. -/
theorem c3_extremes_over_full_series (cd : List ConsumptionEntry)
    (ps : List ℚ) (fr : Option ℚ) (tp : ℚ) (ft : Option ℚ) (s : CostSummary)
    (h : calculate_costs cd ps fr tp ft = .ok s) :
    listMax ps = some s.highest_variable_price ∧
    listMin ps = some s.lowest_variable_price ∧
    s.highest_variable_price ∈ ps ∧ s.lowest_variable_price ∈ ps ∧
    ∀ x ∈ ps, s.lowest_variable_price ≤ x ∧ x ≤ s.highest_variable_price := by
  obtain ⟨st, hi, lo, he, hmax, hmin, rfl⟩ :=
    calculate_costs_ok_inv cd ps fr tp ft s h
  obtain ⟨hmem, hbound⟩ := listMax_spec ps hi hmax
  obtain ⟨hmem2, hbound2⟩ := listMin_spec ps lo hmin
  exact ⟨hmax, hmin, hmem, hmem2, fun x hx => ⟨hbound2 x hx, hbound x hx⟩⟩

theorem c3_extremes_over_full_series_witness :
    listMax [2] = some (2 : ℚ) ∧ listMin [2] = some (2 : ℚ) ∧
    (2 : ℚ) ∈ [(2 : ℚ)] ∧ (2 : ℚ) ∈ [(2 : ℚ)] ∧
    ∀ x ∈ [(2 : ℚ)], (2 : ℚ) ≤ x ∧ x ≤ (2 : ℚ) :=
  c3_extremes_over_full_series [] [2] (some 5) 0 none ⟨0, 2, 2, 0, 0, 0, 0⟩
    (by norm_num [calculate_costs, entryLoop, listMax, listMin, pyAvg,
      initFixed, pyTruthy])

/-- C6: whenever `calculate_costs` returns a `CostSummary`, its
`savings_with_spot_price` equals `total_cost_fixed_rate` minus
`total_cost_variable_price` exactly. -/
theorem c6_savings_identity (cd : List ConsumptionEntry) (ps : List ℚ)
    (fr : Option ℚ) (tp : ℚ) (ft : Option ℚ) (s : CostSummary)
    (h : calculate_costs cd ps fr tp ft = .ok s) :
    s.savings_with_spot_price =
      s.total_cost_fixed_rate - s.total_cost_variable_price := by
  obtain ⟨st, hi, lo, he, hmax, hmin, rfl⟩ :=
    calculate_costs_ok_inv cd ps fr tp ft s h
  rfl

theorem c6_savings_identity_witness :
    (0 : ℚ) = (0 : ℚ) - (0 : ℚ) :=
  c6_savings_identity [] [2] (some 5) 0 none ⟨0, 2, 2, 0, 0, 0, 0⟩
    (by norm_num [calculate_costs, entryLoop, listMax, listMin, pyAvg,
      initFixed, pyTruthy])

/-- C1 counterexample: `calculate_costs` called with neither `fixed_rate` nor
`fixed_total` does not fail fast with a configuration error — on empty
consumption data and a one-price series it runs to completion and returns a
full `CostSummary`. -/
theorem c1_counterexample :
    calculate_costs [] [1] none 0 none = .ok ⟨0, 1, 1, 0, 0, 0, 0⟩ := by
  norm_num [calculate_costs, entryLoop, initFixed, pyTruthy, listMax,
    listMin, pyAvg]

/-- C1 (amended): the neither-`fixed_rate`-nor-`fixed_total` precondition
check lives in the CLI layer only: `checkConfig` (`main`, lines 101-102)
raises the configuration error for every falsy pair, while `calculate_costs`
itself performs no such check and can run to completion on the very same
parameters. -/
theorem c1_config_check_is_cli_only (fr ft : Option ℚ)
    (hfr : pyTruthy fr = false) (hft : pyTruthy ft = false) :
    checkConfig fr ft = .error .configError ∧
    calculate_costs [] [1] fr 0 ft = .ok ⟨0, 1, 1, 0, 0, 0, 0⟩ := by
  constructor
  · simp [checkConfig, hfr, hft]
  · have hinit : initFixed ft = 0 := by simp [initFixed, hft]
    norm_num [calculate_costs, entryLoop, hinit, listMax, listMin, pyAvg]

theorem c1_config_check_is_cli_only_witness :
    checkConfig none none = .error .configError ∧
    calculate_costs [] [1] none 0 none = .ok ⟨0, 1, 1, 0, 0, 0, 0⟩ :=
  c1_config_check_is_cli_only none none (by simp [pyTruthy]) (by simp [pyTruthy])

/-- C2 counterexample: a supplied `fixed_total` of `0` is falsy in Python, so
it does not take precedence: with `fixed_total = 0` and `fixed_rate = 20`,
one active hour accrues per-period fixed cost and `total_cost_fixed_rate`
is `1/5`, not the supplied `fixed_total = 0`. -/
theorem c2_counterexample :
    calculate_costs [⟨[⟨0, 86399, 1, [1]⟩]⟩] [1] (some 20) 0 (some 0) =
      .ok ⟨1 / 100, 1, 1, 0, 1, 1 / 5, 1 / 5 - 1 / 100⟩ := by
  have hd0 : hourLoop ⟨[1], some 20, 0, some 0⟩ 0 86399 1 1 0 (List.range 24)
      ⟨0, 0, [], []⟩ = .ok ⟨1, 20, [], [1]⟩ := by
    rw [show (24 : ℕ) = 23 + 1 from rfl, List.range_succ_eq_map,
      show (23 : ℕ) = 22 + 1 from rfl, List.range_succ_eq_map, List.map_cons]
    norm_num [hourLoop, hourActive, current_hour, pyGet, isPeakHour, pyTruthy,
      List.get?]
  have hdays : dayLoop ⟨[1], some 20, 0, some 0⟩ 0 86399 1 1 (List.range 30)
      ⟨0, 0, [], []⟩ = .ok ⟨1, 20, [], [1]⟩ := by
    rw [show (30 : ℕ) = 29 + 1 from rfl, List.range_succ_eq_map,
      dayLoop_cons_ok hd0]
    apply dayLoop_all_break
    intro day hday
    simp only [List.mem_map, List.mem_range] at hday
    obtain ⟨d, hd, rfl⟩ := hday
    simp only [List.length_cons, List.length_nil]
    omega
  have hmonth : monthLoop ⟨[1], some 20, 0, some 0⟩ 0 86399 1 [1]
      ⟨0, 0, [], []⟩ = .ok ⟨1, 20, [], [1]⟩ := by
    rw [monthLoop_cons_ok hdays]
    exact monthLoop_nil _ _ _ _ _
  have hperiod : periodLoop ⟨[1], some 20, 0, some 0⟩ [⟨0, 86399, 1, [1]⟩]
      ⟨0, 0, [], []⟩ = .ok ⟨1, 20, [], [1]⟩ := by
    rw [periodLoop_cons_ok hmonth]
    exact periodLoop_nil _ _
  have hentry : entryLoop ⟨[1], some 20, 0, some 0⟩ [⟨[⟨0, 86399, 1, [1]⟩]⟩]
      ⟨0, 0, [], []⟩ = .ok ⟨1, 20, [], [1]⟩ := by
    rw [entryLoop_cons_ok hperiod]
    exact entryLoop_nil _ _
  have hinit : initFixed (some 0) = 0 := by norm_num [initFixed, pyTruthy]
  rw [calculate_costs_eq_of [⟨[⟨0, 86399, 1, [1]⟩]⟩] [1] (some 20) 0 (some 0)
    ⟨1, 20, [], [1]⟩ 1 1 (by rw [hinit]; exact hentry) rfl rfl]
  norm_num [pyAvg]

/-- C2 (amended): if `fixed_total` is supplied with a nonzero (truthy) value,
the returned `total_cost_fixed_rate` equals `fixed_total` exactly and no
per-period fixed-cost accrual occurs, for every valid `consumption_data` and
every nonempty `spot_prices`; a supplied `fixed_total` of `0` is treated as
absent. -/
theorem c2_fixed_total_precedence (cd : List ConsumptionEntry) (ps : List ℚ)
    (fr : Option ℚ) (tp t : ℚ) (hv : ValidData cd) (ht : t ≠ 0)
    (hps : ps ≠ []) :
    ∃ s, calculate_costs cd ps fr tp (some t) = .ok s ∧
      s.total_cost_fixed_rate = t := by
  have hft : pyTruthy (some t) = true := by simp [pyTruthy, ht]
  obtain ⟨st, he, hfix⟩ := entryLoop_truthy ⟨ps, fr, tp, some t⟩ cd hft hv
    ⟨0, initFixed (some t), [], []⟩
  obtain ⟨hi, hmax⟩ := listMax_of_ne_nil ps hps
  obtain ⟨lo, hmin⟩ := listMin_of_ne_nil ps hps
  refine ⟨_, calculate_costs_eq_of cd ps fr tp (some t) st hi lo he hmax hmin, ?_⟩
  show st.total_fixed_cost / 100 = t
  rw [hfix]
  show initFixed (some t) / 100 = t
  rw [initFixed, if_pos hft]
  show t * 100 / 100 = t
  rw [mul_div_assoc]
  norm_num

theorem c2_fixed_total_precedence_witness :
    ∃ s, calculate_costs [] [2] none 0 (some 3) = .ok s ∧
      s.total_cost_fixed_rate = 3 :=
  c2_fixed_total_precedence [] [2] none 0 3 (by simp [ValidData])
    (by norm_num) (by simp)

/-- C5 counterexample: after the index overrun in month 2 (its very first
hour index `730` already reaches the length-1 price list), iteration does not
stop for the whole period: month 1, listed after month 2 in the same period,
is still processed and accrues one cent of variable cost. -/
theorem c5_counterexample :
    calculate_costs [⟨[⟨0, 86399, 1, [2, 1]⟩]⟩] [1] none 0 (some 1) =
      .ok ⟨1 / 100, 1, 1, 0, 1, 1, 1 - 1 / 100⟩ := by
  have hm2 : dayLoop ⟨[1], none, 0, some 1⟩ 0 86399 1 2 (List.range 30)
      ⟨0, 100, [], []⟩ = .ok ⟨0, 100, [], []⟩ := by
    apply dayLoop_all_break
    intro day hday
    simp only [List.length_cons, List.length_nil]
    omega
  have hd0 : hourLoop ⟨[1], none, 0, some 1⟩ 0 86399 1 1 0 (List.range 24)
      ⟨0, 100, [], []⟩ = .ok ⟨1, 100, [], [1]⟩ := by
    rw [show (24 : ℕ) = 23 + 1 from rfl, List.range_succ_eq_map,
      show (23 : ℕ) = 22 + 1 from rfl, List.range_succ_eq_map, List.map_cons]
    norm_num [hourLoop, hourActive, current_hour, pyGet, isPeakHour, pyTruthy,
      List.get?]
  have hdays : dayLoop ⟨[1], none, 0, some 1⟩ 0 86399 1 1 (List.range 30)
      ⟨0, 100, [], []⟩ = .ok ⟨1, 100, [], [1]⟩ := by
    rw [show (30 : ℕ) = 29 + 1 from rfl, List.range_succ_eq_map,
      dayLoop_cons_ok hd0]
    apply dayLoop_all_break
    intro day hday
    simp only [List.mem_map, List.mem_range] at hday
    obtain ⟨d, hd, rfl⟩ := hday
    simp only [List.length_cons, List.length_nil]
    omega
  have hmonth : monthLoop ⟨[1], none, 0, some 1⟩ 0 86399 1 [2, 1]
      ⟨0, 100, [], []⟩ = .ok ⟨1, 100, [], [1]⟩ := by
    rw [monthLoop_cons_ok hm2, monthLoop_cons_ok hdays]
    exact monthLoop_nil _ _ _ _ _
  have hperiod : periodLoop ⟨[1], none, 0, some 1⟩ [⟨0, 86399, 1, [2, 1]⟩]
      ⟨0, 100, [], []⟩ = .ok ⟨1, 100, [], [1]⟩ := by
    rw [periodLoop_cons_ok hmonth]
    exact periodLoop_nil _ _
  have hentry : entryLoop ⟨[1], none, 0, some 1⟩ [⟨[⟨0, 86399, 1, [2, 1]⟩]⟩]
      ⟨0, 100, [], []⟩ = .ok ⟨1, 100, [], [1]⟩ := by
    rw [entryLoop_cons_ok hperiod]
    exact entryLoop_nil _ _
  have hinit : initFixed (some 1) = 100 := by norm_num [initFixed, pyTruthy]
  rw [calculate_costs_eq_of [⟨[⟨0, 86399, 1, [2, 1]⟩]⟩] [1] none 0 (some 1)
    ⟨1, 100, [], [1]⟩ 1 1 (by rw [hinit]; exact hentry) rfl rfl]
  norm_num [pyAvg]

/-- C5 (amended): index overrun against the price series is silent, safe
truncation of the innermost iteration: an overrun at the head of the hour
loop ends that day's hour iteration at once (`break`), and on valid data
`calculate_costs` never faults with an out-of-bounds read — but the overrun
does not stop the whole period: later entries of the period's month list are
still iterated. -/
theorem c5_overrun_truncates_safely (cd : List ConsumptionEntry) (ps : List ℚ)
    (fr : Option ℚ) (tp : ℚ) (ft : Option ℚ) (hv : ValidData cd) :
    calculate_costs cd ps fr tp ft ≠ .error .oobRead ∧
    ∀ (start stop : ℕ) (kw : ℚ) (month day hour : ℕ) (rest : List ℕ)
      (st : CostState),
      (ps.length : ℤ) ≤ ((month : ℤ) - 1) * 730 + (day : ℤ) * 24 + (hour : ℤ) →
      hourLoop ⟨ps, fr, tp, ft⟩ start stop kw month day (hour :: rest) st =
        .ok st := by
  constructor
  · intro h
    simp only [calculate_costs] at h
    cases he : entryLoop ⟨ps, fr, tp, ft⟩ cd ⟨0, initFixed ft, [], []⟩ with
    | error e =>
      rw [he] at h
      have hne := entryLoop_error_eq ⟨ps, fr, tp, ft⟩ cd hv _ _ he
      simp only [Except.error.injEq] at h
      rw [h] at hne
      cases hne
    | ok st =>
      rw [he] at h
      cases hmax : listMax ps with
      | none => rw [hmax] at h; simp at h
      | some hi =>
        rw [hmax] at h
        cases hmin : listMin ps with
        | none => rw [hmin] at h; simp at h
        | some lo => rw [hmin] at h; simp at h
  · intro start stop kw month day hour rest st hle
    exact hourLoop_cons_break ⟨ps, fr, tp, ft⟩ start stop kw month day hour
      rest st hle

theorem c5_overrun_truncates_safely_witness :
    calculate_costs [] [] none 0 none ≠ .error .oobRead ∧
    hourLoop ⟨[], none, 0, none⟩ 0 0 1 1 0 [0] ⟨0, 0, [], []⟩ =
      .ok ⟨0, 0, [], []⟩ :=
  ⟨(c5_overrun_truncates_safely [] [] none 0 none (by simp [ValidData])).1,
    (c5_overrun_truncates_safely [] [] none 0 none (by simp [ValidData])).2
      0 0 1 1 0 0 [] ⟨0, 0, [], []⟩ (by norm_num)⟩

/-- C10: with an empty `spot_prices` sequence, `calculate_costs` always fails
with the empty-sequence error raised by `max`/`min` and returns no
`CostSummary`, even for empty consumption data and validly supplied
`fixed_rate`/`fixed_total`: a nonempty price series is an unstated
precondition of the calculator. -/
theorem c10_empty_prices_fail (cd : List ConsumptionEntry) (fr : Option ℚ)
    (tp : ℚ) (ft : Option ℚ) (hv : ValidData cd) :
    calculate_costs cd [] fr tp ft = .error .emptySeq := by
  simp only [calculate_costs]
  rw [entryLoop_nil_prices ⟨[], fr, tp, ft⟩ cd rfl hv
    ⟨0, initFixed ft, [], []⟩]
  rfl

theorem c10_empty_prices_fail_witness :
    calculate_costs [] [] (some 20) 5 none = .error .emptySeq :=
  c10_empty_prices_fail [] (some 20) 5 none (by simp [ValidData])

lemma hourLoop_skip {c : CalcCtx} {start stop : ℕ} {kw : ℚ}
    {month day hour : ℕ} {rest : List ℕ} {st : CostState}
    (hguard : ¬ ((c.spot_prices.length : ℤ) ≤
      ((month : ℤ) - 1) * 730 + (day : ℤ) * 24 + (hour : ℤ)))
    (hact : hourActive start stop (current_hour start hour) = false) :
    hourLoop c start stop kw month day (hour :: rest) st =
      hourLoop c start stop kw month day rest st := by
  simp only [hourLoop]
  rw [if_neg hguard, if_neg (by simp [hact])]

/-- C4: an iterated hour of `calculate_costs` is counted as active exactly
when, with `current_hour = start_time / 3600 + hour` (the period's start hour
plus the loop hour offset, not the day's clock hour), either
`start ≤ current_hour < stop` holds, or `stop < start` and
(`current_hour < stop` or `current_hour ≥ start`) holds — `hourActive` being
the gate of `hourLoop` with Python's `and`/`or` precedence. -/
theorem c4_active_window (start stop hour : ℕ) :
    current_hour start hour = start / 3600 + hour ∧
    (hourActive start stop (current_hour start hour) = true ↔
      (start ≤ start / 3600 + hour ∧ start / 3600 + hour < stop) ∨
      (stop < start ∧
        (start / 3600 + hour < stop ∨ start / 3600 + hour ≥ start))) := by
  refine ⟨rfl, ?_⟩
  simp [hourActive, current_hour]

end SpotRisk
